import Mathlib

/-!
Verification of the task-list manager (todo.py and task_manager.py).

The `Todo` namespace embeds `todo.py`: a `TodoList` owning a list of task
records (Python dicts with keys id, description, completed, created_at and
optionally completed_at), persisted as JSON in a backing file.  Effects are
made explicit: the wall clock is a `now : String` parameter (the value
`datetime.now().isoformat()` would produce), the disk is a `DiskFile` value
threaded through the state, writability of the path is a `writable : Bool`
parameter, and every `print` call is reflected in a result value.  The JSON
text layer is abstracted to a JSON syntax tree: `json.dump`/`json.load` of the
Python standard library map values to text and back faithfully, so the file
holds the tree itself, and a file whose text does not parse is the
`DiskFile.corrupt` case.

The `TaskManager` namespace embeds the minimal variant `task_manager.py`.
-/

namespace Todo

/-- A task record, as built by `TodoList.add_task`: the dict with keys
`id`, `description`, `completed`, `created_at`, and (only after
`mark_done`) `completed_at`. -/
structure Task where
  id : Int
  description : String
  completed : Bool
  created_at : String
  completed_at : Option String
deriving Repr, DecidableEq

/-- A JSON value, the parse tree `json.load` yields / `json.dump` writes. -/
inductive Json where
  | null
  | bool (b : Bool)
  | num (n : Int)
  | str (s : String)
  | arr (elems : List Json)
  | obj (fields : List (String × Json))

/-- The characters `str.strip()` removes at either end: exactly those for
which Python `str.isspace()` is true — the ASCII whitespace characters
U+0009-U+000D and U+0020, the separators U+001C-U+001F, next-line U+0085,
no-break space U+00A0, ogham space U+1680, the spaces U+2000-U+200A, the
line and paragraph separators U+2028 and U+2029, narrow no-break space
U+202F, medium mathematical space U+205F, and ideographic space U+3000. -/
def isSpaceChar (c : Char) : Bool :=
  c = ' ' || c = '\t' || c = '\n' || c = '\r' || c = '\x0b' || c = '\x0c' ||
  (0x1c ≤ c.toNat && c.toNat ≤ 0x1f) ||
  c.toNat = 0x85 || c.toNat = 0xa0 || c.toNat = 0x1680 ||
  (0x2000 ≤ c.toNat && c.toNat ≤ 0x200a) ||
  c.toNat = 0x2028 || c.toNat = 0x2029 || c.toNat = 0x202f ||
  c.toNat = 0x205f || c.toNat = 0x3000

/-- Python `description.strip()`: drop whitespace from both ends. -/
def pstrip (s : String) : String :=
  String.mk (((s.toList.dropWhile isSpaceChar).reverse.dropWhile isSpaceChar).reverse)

/-- The JSON object `json.dump` writes for one task dict.  Python dicts
preserve insertion order, so the keys appear in the order `add_task` (and
then `mark_done`) inserted them: id, description, completed, created_at,
and, only when present, completed_at last. -/
def encodeTask (t : Task) : Json :=
  Json.obj
    ([("id", Json.num t.id),
      ("description", Json.str t.description),
      ("completed", Json.bool t.completed),
      ("created_at", Json.str t.created_at)] ++
      (match t.completed_at with
       | some ts => [("completed_at", Json.str ts)]
       | none => []))

/-- The JSON array `json.dump(self.tasks, ...)` writes. -/
def encodeTasks (ts : List Task) : Json :=
  Json.arr (ts.map encodeTask)

/-- Read back one task dict from the parse tree (the shape `encodeTask`
writes; `json.load` itself does no schema validation, so this is the typed
reading of the dict the rest of `todo.py` assumes). -/
def decodeTask : Json → Option Task
  | Json.obj [("id", Json.num i), ("description", Json.str d),
              ("completed", Json.bool c), ("created_at", Json.str ca)] =>
      some { id := i, description := d, completed := c,
             created_at := ca, completed_at := none }
  | Json.obj [("id", Json.num i), ("description", Json.str d),
              ("completed", Json.bool c), ("created_at", Json.str ca),
              ("completed_at", Json.str xa)] =>
      some { id := i, description := d, completed := c,
             created_at := ca, completed_at := some xa }
  | _ => none

/-- Read back a list of task dicts element by element. -/
def decodeTaskList : List Json → Option (List Task)
  | [] => some []
  | j :: rest =>
      match decodeTask j, decodeTaskList rest with
      | some t, some ts => some (t :: ts)
      | _, _ => none

/-- Read back the task list from a parse tree. -/
def decodeTasks : Json → Option (List Task)
  | Json.arr js => decodeTaskList js
  | _ => none

/-- The backing file on disk: absent (`os.path.exists` false), unreadable
(`open` raises `IOError`), corrupt (text that raises `JSONDecodeError`), or
holding a JSON value. -/
inductive DiskFile where
  | absent
  | unreadable
  | corrupt
  | jsonContent (j : Json)

/-- The whole `TodoList` state: `self.tasks` in memory and the backing
file on disk. -/
structure TodoState where
  tasks : List Task
  file : DiskFile

/-- `TodoList.load_tasks` (todo.py lines 26-35): if the file exists, parse
it; on `JSONDecodeError` or `IOError` print an error and return the empty
list; if the file does not exist return the empty list silently.  The
returned Bool records whether the error message was printed. -/
def load_tasks : DiskFile → List Task × Bool
  | DiskFile.absent => ([], false)
  | DiskFile.unreadable => ([], true)
  | DiskFile.corrupt => ([], true)
  | DiskFile.jsonContent j => ((decodeTasks j).getD [], false)

/-- `TodoList.__init__` (todo.py lines 21-24): load the backing file into
memory.  The Bool is `load_tasks`'s error report. -/
def init_state (f : DiskFile) : TodoState × Bool :=
  ((⟨(load_tasks f).1, f⟩ : TodoState), (load_tasks f).2)

/-- `TodoList.save_tasks` (todo.py lines 37-43): overwrite the backing file
with the JSON of the full task list; an `IOError` (unwritable path) is
caught and reported (returned Bool), never raised, and leaves the in-memory
state untouched. -/
def save_tasks (writable : Bool) (s : TodoState) : TodoState × Bool :=
  if writable then
    ({ s with file := DiskFile.jsonContent (encodeTasks s.tasks) }, false)
  else
    (s, true)

/-- What `add_task` prints: the validation error
"Task description cannot be empty!", or the success message with the
stripped description (the Bool carries whether `save_tasks` reported a
write error before it). -/
inductive AddResult where
  | emptyDescription
  | added (description : String) (saveError : Bool)
deriving Repr, DecidableEq

/-- `TodoList.add_task` (todo.py lines 45-60): reject a description that is
empty after stripping; otherwise append the new task dict with
id = len(tasks) + 1, the stripped description, completed = False,
created_at = now and no completed_at key, then save. -/
def add_task (writable : Bool) (now : String) (s : TodoState) (description : String) :
    TodoState × AddResult :=
  if pstrip description = "" then
    (s, AddResult.emptyDescription)
  else
    let task : Task :=
      { id := (s.tasks.length : Int) + 1
        description := pstrip description
        completed := false
        created_at := now
        completed_at := none }
    let s1 : TodoState := { s with tasks := s.tasks ++ [task] }
    let r := save_tasks writable s1
    (r.1, AddResult.added (pstrip description) r.2)

/-- What `mark_done` prints: "No tasks to mark as done!" on an empty list,
"Task with ID ... not found!", "... is already completed!" with the task's
description, or the success message (again with the save error flag). -/
inductive MarkResult where
  | noTasks
  | notFound
  | alreadyCompleted (description : String)
  | marked (description : String) (saveError : Bool)
deriving Repr, DecidableEq

/-- `next((t for t in self.tasks if t["id"] == task_id), None)`: the first
task whose id matches. -/
def findTask : List Task → Int → Option Task
  | [], _ => none
  | t :: rest, tid => if t.id = tid then some t else findTask rest tid

/-- The in-place mutation `task["completed"] = True;
task["completed_at"] = ...` applied to the first task with the given id
(the one `next` found), leaving list order and every other task intact. -/
def markFirst : List Task → Int → String → List Task
  | [], _, _ => []
  | t :: rest, tid, now =>
      if t.id = tid then
        { t with completed := true, completed_at := some now } :: rest
      else
        t :: markFirst rest tid now

/-- `TodoList.mark_done` (todo.py lines 81-101): report on an empty list;
look the task up by id; report "not found" or "already completed" without
any change; otherwise set completed and completed_at and save. -/
def mark_done (writable : Bool) (now : String) (s : TodoState) (taskId : Int) :
    TodoState × MarkResult :=
  if s.tasks.isEmpty then
    (s, MarkResult.noTasks)
  else
    match findTask s.tasks taskId with
    | none => (s, MarkResult.notFound)
    | some t =>
      if t.completed then
        (s, MarkResult.alreadyCompleted t.description)
      else
        let s1 : TodoState := { s with tasks := markFirst s.tasks taskId now }
        let r := save_tasks writable s1
        (r.1, MarkResult.marked t.description r.2)

/-- `TodoList.get_pending_tasks` (todo.py lines 103-105). -/
def get_pending_tasks (s : TodoState) : List Task :=
  s.tasks.filter (fun t => !t.completed)

/-- `TodoList.get_completed_tasks` (todo.py lines 107-109). -/
def get_completed_tasks (s : TodoState) : List Task :=
  s.tasks.filter (fun t => t.completed)

/-- States reachable from an empty store by `add_task` and `mark_done`
operations, under any clock values and any disk behaviour. -/
inductive Reachable : TodoState → Prop where
  | empty (f : DiskFile) : Reachable { tasks := [], file := f }
  | add (w : Bool) (now d : String) {s : TodoState} :
      Reachable s → Reachable (add_task w now s d).1
  | mark (w : Bool) (now : String) (tid : Int) {s : TodoState} :
      Reachable s → Reachable (mark_done w now s tid).1

end Todo

namespace TaskManager

/-- A task record of `task_manager.py`: the dict with keys task and done. -/
structure MTask where
  task : String
  done : Bool
deriving Repr, DecidableEq

/-- `add_task` (task_manager.py lines 3-4): append with done = False. -/
def add_task (ts : List MTask) (t : String) : List MTask :=
  ts ++ [{ task := t, done := false }]

/-- The in-bounds assignment `tasks[index]["done"] = True`. -/
def set_done : List MTask → Nat → List MTask
  | [], _ => []
  | t :: rest, 0 => { t with done := true } :: rest
  | t :: rest, n + 1 => t :: set_done rest n

/-- `mark_done` (task_manager.py lines 11-13): guard `0 <= index <
len(tasks)`; inside the bounds set the done flag at that position, outside
them fall through silently (the function prints nothing and returns
nothing either way). -/
def mark_done (ts : List MTask) (index : Int) : List MTask :=
  if 0 ≤ index ∧ index < (ts.length : Int) then
    set_done ts index.toNat
  else
    ts

end TaskManager

namespace Todo

/-! Helper lemmas shared by the claim theorems. -/

theorem save_tasks_fst_tasks (w : Bool) (s : TodoState) :
    ((save_tasks w s).1).tasks = s.tasks := by
  cases w <;> rfl

theorem add_task_fst_tasks (w : Bool) (now : String) (s : TodoState) (d : String) :
    (add_task w now s d).1.tasks =
      if pstrip d = "" then s.tasks
      else s.tasks ++ [{ id := (s.tasks.length : Int) + 1, description := pstrip d,
                         completed := false, created_at := now, completed_at := none }] := by
  by_cases h : pstrip d = "" <;> cases w <;> simp [add_task, save_tasks, h]

theorem add_task_snd (w : Bool) (now : String) (s : TodoState) (d : String) :
    (add_task w now s d).2 =
      if pstrip d = "" then AddResult.emptyDescription
      else AddResult.added (pstrip d) (!w) := by
  by_cases h : pstrip d = "" <;> cases w <;> simp [add_task, save_tasks, h]

theorem mark_done_fst_tasks (w : Bool) (now : String) (s : TodoState) (tid : Int) :
    (mark_done w now s tid).1.tasks =
      if s.tasks.isEmpty then s.tasks
      else
        match findTask s.tasks tid with
        | none => s.tasks
        | some t => if t.completed then s.tasks else markFirst s.tasks tid now := by
  cases he : s.tasks.isEmpty <;> simp [mark_done, he]
  cases hf : findTask s.tasks tid <;> simp [hf]
  by_cases hc : (‹Task›).completed
  all_goals cases w <;> simp_all [save_tasks]

theorem mark_done_snd (w : Bool) (now : String) (s : TodoState) (tid : Int) :
    (mark_done w now s tid).2 =
      if s.tasks.isEmpty then MarkResult.noTasks
      else
        match findTask s.tasks tid with
        | none => MarkResult.notFound
        | some t =>
            if t.completed then MarkResult.alreadyCompleted t.description
            else MarkResult.marked t.description (!w) := by
  cases he : s.tasks.isEmpty <;> simp [mark_done, he]
  cases hf : findTask s.tasks tid <;> simp [hf]
  by_cases hc : (‹Task›).completed
  all_goals cases w <;> simp_all [save_tasks]

end Todo

namespace Todo

theorem findTask_eq_none (ts : List Task) (tid : Int) (h : ∀ u ∈ ts, u.id ≠ tid) :
    findTask ts tid = none := by
  induction ts with
  | nil => rfl
  | cons a rest ih =>
      have ha : ¬ a.id = tid := h a (List.mem_cons_self a rest)
      simp only [findTask, if_neg ha]
      exact ih fun u hu => h u (List.mem_cons_of_mem a hu)

theorem findTask_append_first (pre post : List Task) (t : Task)
    (h : ∀ u ∈ pre, u.id ≠ t.id) :
    findTask (pre ++ t :: post) t.id = some t := by
  induction pre with
  | nil => simp [findTask]
  | cons a rest ih =>
      have ha : ¬ a.id = t.id := h a (List.mem_cons_self a rest)
      simp only [List.cons_append, findTask, if_neg ha]
      exact ih fun u hu => h u (List.mem_cons_of_mem a hu)

theorem markFirst_append_first (pre post : List Task) (t : Task) (now : String)
    (h : ∀ u ∈ pre, u.id ≠ t.id) :
    markFirst (pre ++ t :: post) t.id now =
      pre ++ { t with completed := true, completed_at := some now } :: post := by
  induction pre with
  | nil => simp [markFirst]
  | cons a rest ih =>
      have ha : ¬ a.id = t.id := h a (List.mem_cons_self a rest)
      simp only [List.cons_append, markFirst, if_neg ha, List.cons.injEq, true_and]
      exact ih fun u hu => h u (List.mem_cons_of_mem a hu)

theorem mem_markFirst (ts : List Task) (tid : Int) (now : String) (t' : Task)
    (h : t' ∈ markFirst ts tid now) :
    t' ∈ ts ∨ ∃ u ∈ ts, t' = { u with completed := true, completed_at := some now } := by
  induction ts with
  | nil => simp [markFirst] at h
  | cons a rest ih =>
      by_cases ha : a.id = tid
      · simp only [markFirst, if_pos ha, List.mem_cons] at h
        rcases h with h | h
        · exact Or.inr ⟨a, List.mem_cons_self a rest, h⟩
        · exact Or.inl (List.mem_cons_of_mem a h)
      · simp only [markFirst, if_neg ha, List.mem_cons] at h
        rcases h with h | h
        · exact Or.inl (h ▸ List.mem_cons_self a rest)
        · rcases ih h with h2 | ⟨u, hu, he⟩
          · exact Or.inl (List.mem_cons_of_mem a h2)
          · exact Or.inr ⟨u, List.mem_cons_of_mem a hu, he⟩

/-- C1: for every description that is non-empty after trimming, `add_task`
on a store with n tasks appends exactly one task — count becomes n + 1, the
new task has id n + 1, the trimmed description, `completed = false` and no
`completed_at` — leaves every previously stored task unchanged (the old
list is a prefix of the new one), and reports success. -/
theorem add_task_appends (w : Bool) (now : String) (s : TodoState) (d : String)
    (h : pstrip d ≠ "") :
    (add_task w now s d).1.tasks =
      s.tasks ++ [{ id := (s.tasks.length : Int) + 1, description := pstrip d,
                    completed := false, created_at := now, completed_at := none }] ∧
    (add_task w now s d).1.tasks.length = s.tasks.length + 1 ∧
    (add_task w now s d).2 = AddResult.added (pstrip d) (!w) := by
  refine ⟨?_, ?_, ?_⟩
  · rw [add_task_fst_tasks, if_neg h]
  · rw [add_task_fst_tasks, if_neg h, List.length_append, List.length_singleton]
  · rw [add_task_snd, if_neg h]

theorem add_task_appends_witness :
    pstrip " milk " ≠ "" ∧
    (add_task true "2024-01-01T00:00:00" { tasks := [], file := DiskFile.absent } " milk ").1.tasks =
      ([] : List Task) ++
        [{ id := ((([] : List Task).length : Int) + 1), description := pstrip " milk ",
           completed := false, created_at := "2024-01-01T00:00:00", completed_at := none }] :=
  ⟨by decide,
   (add_task_appends true "2024-01-01T00:00:00" { tasks := [], file := DiskFile.absent }
      " milk " (by decide)).1⟩

/-- C2: for every description that is empty after trimming, `add_task`
returns the state completely unchanged — same task list and same backing
file, so nothing is written — and reports the validation error. -/
theorem add_task_rejects_empty (w : Bool) (now : String) (s : TodoState) (d : String)
    (h : pstrip d = "") :
    add_task w now s d = (s, AddResult.emptyDescription) := by
  simp [add_task, h]

theorem add_task_rejects_empty_witness :
    pstrip "   " = "" ∧
    add_task true "t0" { tasks := [], file := DiskFile.absent } "   " =
      ({ tasks := [], file := DiskFile.absent }, AddResult.emptyDescription) :=
  ⟨by decide, add_task_rejects_empty true "t0" { tasks := [], file := DiskFile.absent } "   " (by decide)⟩

end Todo

namespace Todo

theorem save_tasks_snd (w : Bool) (s : TodoState) : (save_tasks w s).2 = !w := by
  cases w <;> rfl

theorem mark_done_found_completed (w : Bool) (now : String) (s : TodoState) (tid : Int)
    (t : Task) (hne : s.tasks.isEmpty = false) (hf : findTask s.tasks tid = some t)
    (hc : t.completed = true) :
    mark_done w now s tid = (s, MarkResult.alreadyCompleted t.description) := by
  simp [mark_done, hne, hf, hc]

theorem mark_done_found_not_completed (w : Bool) (now : String) (s : TodoState) (tid : Int)
    (t : Task) (hne : s.tasks.isEmpty = false) (hf : findTask s.tasks tid = some t)
    (hc : t.completed = false) :
    mark_done w now s tid =
      ((save_tasks w { s with tasks := markFirst s.tasks tid now }).1,
       MarkResult.marked t.description
         ((save_tasks w { s with tasks := markFirst s.tasks tid now }).2)) := by
  simp [mark_done, hne, hf, hc]

/-- C3: for a stored task `t` that is not yet completed (located by its id,
with no earlier task sharing that id), `mark_done` sets exactly that task's
completed flag and gives it a `completed_at`, keeps its id, description and
created_at and every other task unchanged, and reports success; a second
`mark_done` on the same id then changes nothing at all and reports
"already completed". -/
theorem mark_done_marks (w w2 : Bool) (now now2 : String) (s : TodoState)
    (pre post : List Task) (t : Task)
    (hs : s.tasks = pre ++ t :: post)
    (hpre : ∀ u ∈ pre, u.id ≠ t.id)
    (hc : t.completed = false) :
    (mark_done w now s t.id).1.tasks =
      pre ++ { t with completed := true, completed_at := some now } :: post ∧
    ({ t with completed := true, completed_at := some now } : Task).id = t.id ∧
    ({ t with completed := true, completed_at := some now } : Task).description
      = t.description ∧
    ({ t with completed := true, completed_at := some now } : Task).created_at
      = t.created_at ∧
    ({ t with completed := true, completed_at := some now } : Task).completed = true ∧
    ({ t with completed := true, completed_at := some now } : Task).completed_at
      = some now ∧
    (mark_done w now s t.id).2 = MarkResult.marked t.description (!w) ∧
    mark_done w2 now2 (mark_done w now s t.id).1 t.id =
      ((mark_done w now s t.id).1, MarkResult.alreadyCompleted t.description) := by
  have hne : s.tasks.isEmpty = false := by rw [hs]; cases pre <;> rfl
  have hf : findTask s.tasks t.id = some t := by
    rw [hs]; exact findTask_append_first pre post t hpre
  have hm : markFirst s.tasks t.id now =
      pre ++ { t with completed := true, completed_at := some now } :: post := by
    rw [hs]; exact markFirst_append_first pre post t now hpre
  have h1 := mark_done_found_not_completed w now s t.id t hne hf hc
  have htasks : (mark_done w now s t.id).1.tasks =
      pre ++ { t with completed := true, completed_at := some now } :: post := by
    simp only [h1, save_tasks_fst_tasks]
    exact hm
  have hne1 : (mark_done w now s t.id).1.tasks.isEmpty = false := by
    rw [htasks]; cases pre <;> rfl
  have hf1 : findTask (mark_done w now s t.id).1.tasks t.id =
      some { t with completed := true, completed_at := some now } := by
    rw [htasks]
    exact findTask_append_first pre post _ hpre
  have h2 := mark_done_found_completed w2 now2 (mark_done w now s t.id).1 t.id
    { t with completed := true, completed_at := some now } hne1 hf1 rfl
  refine ⟨htasks, rfl, rfl, rfl, rfl, rfl, ?_, ?_⟩
  · simp only [h1, save_tasks_snd]
  · exact h2

theorem mark_done_marks_witness :
    ((⟨1, "a", false, "c0", none⟩ : Task).completed = false) ∧
    (mark_done true "t1"
        { tasks := [⟨1, "a", false, "c0", none⟩], file := DiskFile.absent }
        (⟨1, "a", false, "c0", none⟩ : Task).id).1.tasks =
      [] ++ { (⟨1, "a", false, "c0", none⟩ : Task) with
              completed := true, completed_at := some "t1" } :: [] :=
  ⟨rfl,
   (mark_done_marks true true "t1" "t2"
      { tasks := [⟨1, "a", false, "c0", none⟩], file := DiskFile.absent }
      [] [] ⟨1, "a", false, "c0", none⟩ rfl (by simp) rfl).1⟩

/-- C4 counterexample: on the empty store the code does leave the store
unchanged, but prints "No tasks to mark as done!" — a different report from
the "Task with ID ... not found!" message the claim requires for every
unknown id. -/
theorem mark_done_empty_store_counterexample :
    (mark_done true "t0" { tasks := [], file := DiskFile.absent } 1).2 =
      MarkResult.noTasks ∧
    MarkResult.noTasks ≠ MarkResult.notFound :=
  ⟨rfl, by decide⟩

/-- C4 (amended): for every id that matches no stored task, `mark_done`
leaves the state entirely unchanged (no write happens either); it reports
"not found" when the store is non-empty, and the distinct message
"no tasks to mark as done" when the store is empty. -/
theorem mark_done_not_found (w : Bool) (now : String) (s : TodoState) (tid : Int)
    (h : ∀ u ∈ s.tasks, u.id ≠ tid) :
    (mark_done w now s tid).1 = s ∧
    (mark_done w now s tid).2 =
      (if s.tasks.isEmpty then MarkResult.noTasks else MarkResult.notFound) := by
  have hf : findTask s.tasks tid = none := findTask_eq_none s.tasks tid h
  cases he : s.tasks.isEmpty <;> simp [mark_done, he, hf]

theorem mark_done_not_found_witness :
    (∀ u ∈ [(⟨1, "a", false, "c0", none⟩ : Task)], u.id ≠ (2 : Int)) ∧
    (mark_done true "t0"
        { tasks := [⟨1, "a", false, "c0", none⟩], file := DiskFile.absent } 2).1 =
      { tasks := [⟨1, "a", false, "c0", none⟩], file := DiskFile.absent } :=
  ⟨by decide,
   (mark_done_not_found true "t0"
      { tasks := [⟨1, "a", false, "c0", none⟩], file := DiskFile.absent } 2
      (by decide)).1⟩

end Todo

namespace Todo

theorem decodeTask_encodeTask (t : Task) : decodeTask (encodeTask t) = some t := by
  obtain ⟨i, d, c, ca, cao⟩ := t
  cases cao <;> rfl

theorem decodeTaskList_map_encode (ts : List Task) :
    decodeTaskList (ts.map encodeTask) = some ts := by
  induction ts with
  | nil => rfl
  | cons t rest ih => simp [decodeTaskList, decodeTask_encodeTask, ih]

/-- C5: saving any task list to the backing file and loading it back yields
the same list, in the same order with every field value intact (and no load
error is reported); so save followed by load is the identity on the task
sequence, in particular for every sequence `add_task`/`mark_done` can
build. -/
theorem save_load_roundtrip (ts : List Task) (f : DiskFile) :
    load_tasks ((save_tasks true { tasks := ts, file := f }).1.file) = (ts, false) := by
  simp [save_tasks, load_tasks, encodeTasks, decodeTasks, decodeTaskList_map_encode]

/-- C6: the pending and completed views are each order-preserving
subsequences of the store, together they cover exactly the stored tasks,
and no task record lies in both. -/
theorem pending_completed_partition (s : TodoState) :
    (get_pending_tasks s).Sublist s.tasks ∧
    (get_completed_tasks s).Sublist s.tasks ∧
    (∀ t : Task, t ∈ s.tasks ↔ t ∈ get_pending_tasks s ∨ t ∈ get_completed_tasks s) ∧
    (∀ t : Task, ¬(t ∈ get_pending_tasks s ∧ t ∈ get_completed_tasks s)) := by
  refine ⟨List.filter_sublist s.tasks, List.filter_sublist s.tasks, ?_, ?_⟩
  · intro t
    by_cases hc : t.completed <;>
      simp [get_pending_tasks, get_completed_tasks, List.mem_filter, hc]
  · intro t ht
    rcases ht with ⟨h1, h2⟩
    simp only [get_pending_tasks, get_completed_tasks, List.mem_filter] at h1 h2
    rw [h2.2] at h1
    exact absurd h1.2 (by simp)

theorem mark_done_tasks_cases (w : Bool) (now : String) (s : TodoState) (tid : Int) :
    (mark_done w now s tid).1.tasks = s.tasks ∨
    (mark_done w now s tid).1.tasks = markFirst s.tasks tid now := by
  rw [mark_done_fst_tasks]
  cases he : s.tasks.isEmpty
  · cases hf : findTask s.tasks tid
    · simp [he, hf]
    · by_cases hc : (‹Task›).completed <;> simp_all
  · simp [he]

/-- C7: in every store state reachable from an empty store by `add_task`
and `mark_done` operations, a task record carries a `completed_at` value
exactly when its completed flag is set; both operations preserve this
invariant. -/
theorem reachable_invariant (s : TodoState) (hr : Reachable s) :
    ∀ t ∈ s.tasks, t.completed_at.isSome = t.completed := by
  induction hr with
  | empty f => intro t ht; simp at ht
  | add w now d hrec ih =>
      intro t ht
      rw [add_task_fst_tasks] at ht
      by_cases hd : pstrip d = ""
      · rw [if_pos hd] at ht; exact ih t ht
      · rw [if_neg hd] at ht
        rcases List.mem_append.mp ht with h | h
        · exact ih t h
        · rw [List.mem_singleton] at h; subst h; rfl
  | mark w now tid hrec ih =>
      intro t ht
      rcases mark_done_tasks_cases w now _ tid with hcase | hcase
      · rw [hcase] at ht; exact ih t ht
      · rw [hcase] at ht
        rcases mem_markFirst _ _ _ _ ht with h | ⟨u, _, he⟩
        · exact ih t h
        · subst he; rfl

theorem reachable_invariant_witness :
    Reachable (add_task true "t1" { tasks := [], file := DiskFile.absent } "a").1 ∧
    ∀ t ∈ (add_task true "t1" { tasks := [], file := DiskFile.absent } "a").1.tasks,
      t.completed_at.isSome = t.completed :=
  ⟨Reachable.add true "t1" "a" (Reachable.empty DiskFile.absent),
   reachable_invariant _ (Reachable.add true "t1" "a" (Reachable.empty DiskFile.absent))⟩

end Todo

namespace Todo

/-- C8: constructing the store on a missing backing file yields an empty
task list with no error; on a corrupt (unparseable) or unreadable file it
reports a load error and still yields an empty in-memory list — the
exception is caught, construction is a total function and never
propagates it. -/
theorem init_state_error_handling :
    init_state DiskFile.absent = ({ tasks := [], file := DiskFile.absent }, false) ∧
    init_state DiskFile.corrupt = ({ tasks := [], file := DiskFile.corrupt }, true) ∧
    init_state DiskFile.unreadable =
      ({ tasks := [], file := DiskFile.unreadable }, true) ∧
    load_tasks DiskFile.absent = ([], false) ∧
    load_tasks DiskFile.corrupt = ([], true) ∧
    load_tasks DiskFile.unreadable = ([], true) :=
  ⟨rfl, rfl, rfl, rfl, rfl, rfl⟩

/-- C9: a failed save is reported and leaves the state as it was (no
exception escapes — `save_tasks` is total); the in-memory task list an
`add_task` or `mark_done` leaves behind is identical whether its save
succeeded or failed; and neither operation's task list nor its report
depends on the backing file at all, so subsequent operations in the same
run behave identically after a save failure. -/
theorem save_failure_keeps_state (now : String) (s : TodoState) (d : String) (tid : Int) :
    save_tasks false s = (s, true) ∧
    (add_task false now s d).1.tasks = (add_task true now s d).1.tasks ∧
    (mark_done false now s tid).1.tasks = (mark_done true now s tid).1.tasks ∧
    (∀ (w : Bool) (ts : List Task) (f f' : DiskFile),
      (add_task w now { tasks := ts, file := f } d).1.tasks =
        (add_task w now { tasks := ts, file := f' } d).1.tasks ∧
      (add_task w now { tasks := ts, file := f } d).2 =
        (add_task w now { tasks := ts, file := f' } d).2 ∧
      (mark_done w now { tasks := ts, file := f } tid).1.tasks =
        (mark_done w now { tasks := ts, file := f' } tid).1.tasks ∧
      (mark_done w now { tasks := ts, file := f } tid).2 =
        (mark_done w now { tasks := ts, file := f' } tid).2) :=
  ⟨rfl,
   by rw [add_task_fst_tasks, add_task_fst_tasks],
   by rw [mark_done_fst_tasks, mark_done_fst_tasks],
   fun w ts f f' =>
     ⟨by rw [add_task_fst_tasks, add_task_fst_tasks],
      by rw [add_task_snd, add_task_snd],
      by rw [mark_done_fst_tasks, mark_done_fst_tasks],
      by rw [mark_done_snd, mark_done_snd]⟩⟩

end Todo

namespace TaskManager

theorem set_done_append (pre post : List MTask) (t : MTask) :
    set_done (pre ++ t :: post) pre.length = pre ++ { t with done := true } :: post := by
  induction pre with
  | nil => rfl
  | cons a rest ih => simp [set_done, ih]

/-- C10: the minimal variant's `mark_done` identifies the task by 0-based
position: for an index inside the bounds it sets the done flag of exactly
the task at that position and keeps every other task unchanged, and for
every integer index outside the bounds (negative or too large) it returns
the list untouched — reporting nothing in either case, since the function
prints nothing and returns no status. -/
theorem mark_done_by_index (pre post : List MTask) (t : MTask) (ts : List MTask)
    (index : Int) (hout : ¬(0 ≤ index ∧ index < (ts.length : Int))) :
    mark_done (pre ++ t :: post) (pre.length : Int) =
      pre ++ { t with done := true } :: post ∧
    mark_done ts index = ts := by
  constructor
  · have hb : 0 ≤ (pre.length : Int) ∧
        (pre.length : Int) < (((pre ++ t :: post).length : Nat) : Int) := by
      rw [List.length_append, List.length_cons]
      push_cast
      omega
    unfold mark_done
    rw [if_pos hb, Int.toNat_natCast]
    exact set_done_append pre post t
  · unfold mark_done
    rw [if_neg hout]

theorem mark_done_by_index_witness :
    (¬(0 ≤ (5 : Int) ∧ (5 : Int) < (([⟨"a", false⟩] : List MTask).length : Int))) ∧
    mark_done [⟨"a", false⟩, ⟨"b", false⟩] 1 = [⟨"a", false⟩, ⟨"b", true⟩] ∧
    mark_done [⟨"a", false⟩] 5 = [⟨"a", false⟩] := by
  refine ⟨by decide, ?_, ?_⟩
  · exact (mark_done_by_index [⟨"a", false⟩] [] ⟨"b", false⟩ [⟨"a", false⟩] 5 (by decide)).1
  · exact (mark_done_by_index [⟨"a", false⟩] [] ⟨"b", false⟩ [⟨"a", false⟩] 5 (by decide)).2

end TaskManager

namespace Todo

/-! Supporting facts: in every reachable store the ids are exactly
1, 2, ..., n in order, so an id determines at most one stored task and the
first-match lookup of `mark_done` is unambiguous. -/

theorem markFirst_map_id (ts : List Task) (tid : Int) (now : String) :
    (markFirst ts tid now).map Task.id = ts.map Task.id := by
  induction ts with
  | nil => rfl
  | cons a rest ih => by_cases ha : a.id = tid <;> simp [markFirst, ha, ih]

theorem markFirst_length (ts : List Task) (tid : Int) (now : String) :
    (markFirst ts tid now).length = ts.length := by
  rw [← List.length_map (markFirst ts tid now) Task.id, markFirst_map_id,
    List.length_map]

theorem reachable_ids (s : TodoState) (hr : Reachable s) :
    s.tasks.map Task.id = (List.range' 1 s.tasks.length).map (fun n : Nat => (n : Int)) := by
  induction hr with
  | empty f => rfl
  | add w now d hrec ih =>
      rw [add_task_fst_tasks]
      by_cases hd : pstrip d = ""
      · rw [if_pos hd]; exact ih
      · rw [if_neg hd, List.map_append, List.length_append, ih]
        simp [List.range'_concat, Nat.add_comm]
  | mark w now tid hrec ih =>
      rcases mark_done_tasks_cases w now _ tid with hcase | hcase <;> rw [hcase]
      · exact ih
      · rw [markFirst_map_id, markFirst_length]; exact ih

theorem reachable_nodup_ids (s : TodoState) (hr : Reachable s) :
    (s.tasks.map Task.id).Nodup := by
  rw [reachable_ids s hr]
  exact List.Nodup.map (fun a b h => by exact_mod_cast h)
    (List.nodup_range' 1 s.tasks.length 1 Nat.one_pos)

end Todo
